import Mathlib

/-!
Shallow embedding of `src/Proyecto_Final_Mercadito.py` (a Flask + SQLAlchemy
artist-marketplace application) for verification of its specification.

Conventions used throughout:
* JSON request values are modelled by `Value` (null, booleans, numbers as
  exact rationals, strings).  Python floats are modelled as `ℚ`; none of the
  validated ranges here are sensitive to binary rounding.
* Python `float(x)` / `int(x)` conversions are modelled by `pyFloat` /
  `pyInt`, returning `none` where CPython raises.  The string parsers cover
  decimal literals with optional sign, fraction and exponent; the special
  spellings `inf`/`nan` and digit underscores are not modelled (every use
  site immediately range-checks the result, which rejects `inf`/`nan`
  anyway).
* The database session is modelled transactionally: a handler's store only
  changes when the handler reaches `db.session.commit()`.  Handlers that
  return early (or raise) leave the store as it was, matching the
  rollback-on-teardown behaviour of Flask-SQLAlchemy sessions.
-/

/-- A JSON value as received by `request.get_json()`. -/
inductive Value where
  | vNull : Value
  | vBool (b : Bool) : Value
  | vNum (q : ℚ) : Value
  | vStr (s : String) : Value
  deriving DecidableEq, Repr

/-- Python truthiness (`bool(x)`) on the modelled JSON values. -/
def truthy : Value → Bool
  | .vNull => false
  | .vBool b => b
  | .vNum q => decide (q ≠ 0)
  | .vStr s => !s.isEmpty

/-- Whitespace stripped by Python's `str.strip()` / numeric conversions. -/
def isPySpace (c : Char) : Bool :=
  c == ' ' || c == '\t' || c == '\n' || c == '\r' || c == '\x0b' || c == '\x0c'

/-- Strip leading and trailing Python whitespace from a character list. -/
def pyTrim (cs : List Char) : List Char :=
  ((cs.dropWhile isPySpace).reverse.dropWhile isPySpace).reverse

/-- Value of a (big-endian) list of decimal digit characters. -/
def digitsToNat (cs : List Char) : ℕ :=
  cs.foldl (fun n c => 10 * n + (c.toNat - 48)) 0

/-- Split an optional leading sign, returning it as a rational unit. -/
def splitSign : List Char → ℚ × List Char
  | '+' :: rest => (1, rest)
  | '-' :: rest => (-1, rest)
  | cs => (1, cs)

/-- Split an optional leading sign, returning it as an integer unit. -/
def splitSignInt : List Char → ℤ × List Char
  | '+' :: rest => (1, rest)
  | '-' :: rest => (-1, rest)
  | cs => (1, cs)

/-- Finish parsing a float literal: the remaining characters must be empty
or a well-formed exponent part. -/
def decExp (sign : ℚ) (m : ℚ) : List Char → Option ℚ
  | [] => some (sign * m)
  | c :: rest =>
    if c == 'e' || c == 'E' then
      let (es, rest2) := splitSignInt rest
      let eds := rest2.takeWhile Char.isDigit
      let rest3 := rest2.dropWhile Char.isDigit
      if eds.isEmpty || !rest3.isEmpty then none
      else some (sign * m * (10 : ℚ) ^ (es * (digitsToNat eds : ℤ)))
    else none

/-- Model of CPython `float(s)` on strings: optional whitespace and sign,
then digits with an optional fractional part and optional exponent. -/
def parsePyFloat (s : String) : Option ℚ :=
  let cs := pyTrim s.data
  let (sign, cs1) := splitSign cs
  let ip := cs1.takeWhile Char.isDigit
  let cs2 := cs1.dropWhile Char.isDigit
  match cs2 with
  | '.' :: cs3 =>
    let fp := cs3.takeWhile Char.isDigit
    let cs4 := cs3.dropWhile Char.isDigit
    if ip.isEmpty && fp.isEmpty then none
    else decExp sign ((digitsToNat ip : ℚ) + (digitsToNat fp : ℚ) / (10 : ℚ) ^ fp.length) cs4
  | _ =>
    if ip.isEmpty then none
    else decExp sign (digitsToNat ip : ℚ) cs2

/-- Model of CPython `int(s)` on strings: optional whitespace and sign, then
decimal digits only (so `"3.5"` raises, i.e. parses to `none`). -/
def parsePyInt (s : String) : Option ℤ :=
  let cs := pyTrim s.data
  let (sign, cs1) := splitSignInt cs
  if cs1.isEmpty || !cs1.all Char.isDigit then none
  else some (sign * (digitsToNat cs1 : ℤ))

/-- Truncation of a rational toward zero, as CPython `int(float)` does. -/
def ratTrunc (q : ℚ) : ℤ :=
  if q.num < 0 then -((q.num.natAbs / q.den : ℕ) : ℤ)
  else ((q.num.natAbs / q.den : ℕ) : ℤ)

/-- CPython `float(x)` on a JSON value (`none` models a raised exception). -/
def pyFloat : Value → Option ℚ
  | .vNull => none
  | .vBool b => some (if b then 1 else 0)
  | .vNum q => some q
  | .vStr s => parsePyFloat s

/-- CPython `int(x)` on a JSON value (`none` models a raised exception);
on numbers it truncates toward zero. -/
def pyInt : Value → Option ℤ
  | .vNull => none
  | .vBool b => some (if b then 1 else 0)
  | .vNum q => some (ratTrunc q)
  | .vStr s => parsePyInt s

/-- `validate_price` from the source: `float(price)` must succeed and lie in
the open-closed interval `(0, 999999]`. -/
def validate_price (price : Value) : Bool :=
  match pyFloat price with
  | some p => decide (0 < p ∧ p ≤ 999999)
  | none => false

/-- `validate_rating` from the source: `int(rating)` must succeed and lie in
`[1, 5]`. -/
def validate_rating (rating : Value) : Bool :=
  match pyInt rating with
  | some r => decide (1 ≤ r ∧ r ≤ 5)
  | none => false

/-- Characters allowed in the local part of the source's email regular
expression `[a-zA-Z0-9._%+-]`. -/
def isLocalChar (c : Char) : Bool :=
  c.isAlphanum || c == '.' || c == '_' || c == '%' || c == '+' || c == '-'

/-- Characters allowed in the domain part `[a-zA-Z0-9.-]`. -/
def isDomainChar (c : Char) : Bool :=
  c.isAlphanum || c == '.' || c == '-'

/-- `validate_email` from the source: full match of
`[a-zA-Z0-9._%+-]+@[a-zA-Z0-9.-]+\.[a-zA-Z]\x7b2,\x7d`.  Since the
top-level-domain part admits no dot, a match exists exactly when the split
is made at the last dot after the `@`. -/
def validate_email (email : String) : Bool :=
  let cs := email.data
  let localPart := cs.takeWhile (fun c => c != '@')
  match cs.dropWhile (fun c => c != '@') with
  | '@' :: domTld =>
    (!localPart.isEmpty && localPart.all isLocalChar) &&
      (let revTld := domTld.reverse.takeWhile (fun c => c != '.')
       match domTld.reverse.dropWhile (fun c => c != '.') with
       | '.' :: revDom =>
         (!revDom.isEmpty && revDom.reverse.all isDomainChar) &&
           (decide (2 ≤ revTld.length) && revTld.all Char.isAlpha)
       | _ => false)
  | _ => false

/-! ## Data model

One record type per SQLAlchemy model.  `created_at` columns are omitted:
no claim depends on timestamps.  Each table's autoincrementing primary key
is modelled by a per-table `next…Id` counter in the store. -/

/-- Row of the `User` table. -/
structure UserR where
  id : ℕ
  username : String
  email : String
  password : String
  bio : Option String
  avatar_url : Option String
  is_artist : Bool
  deriving DecidableEq, Repr

/-- Row of the `Post` table (`price` is a nullable column). -/
structure PostR where
  id : ℕ
  title : String
  description : String
  image_url : String
  price : Option ℚ
  is_for_sale : Bool
  user_id : ℕ
  deriving DecidableEq, Repr

/-- Row of the `Commission` table (`price` is `nullable=False`). -/
structure CommissionR where
  id : ℕ
  title : String
  description : String
  price : ℚ
  artist_id : ℕ
  deriving DecidableEq, Repr

/-- Row of the `Review` table. -/
structure ReviewR where
  id : ℕ
  rating : ℤ
  comment : String
  user_id : ℕ
  post_id : ℕ
  deriving DecidableEq, Repr

/-- Row of the `Favorite` table. -/
structure FavoriteR where
  id : ℕ
  user_id : ℕ
  post_id : ℕ
  deriving DecidableEq, Repr

/-- Row of the `Order` table (`price` is `nullable=False`). -/
structure OrderR where
  id : ℕ
  buyer_id : ℕ
  post_id : ℕ
  price : ℚ
  status : String
  deriving DecidableEq, Repr

/-- The whole relational store, plus the autoincrement counters. -/
structure Store where
  users : List UserR
  posts : List PostR
  commissions : List CommissionR
  reviews : List ReviewR
  favorites : List FavoriteR
  orders : List OrderR
  nextUserId : ℕ
  nextPostId : ℕ
  nextCommissionId : ℕ
  nextReviewId : ℕ
  nextFavoriteId : ℕ
  nextOrderId : ℕ
  deriving DecidableEq, Repr

/-- The freshly created database (`db.create_all()` on an empty file). -/
def emptyStore : Store := ⟨[], [], [], [], [], [], 1, 1, 1, 1, 1, 1⟩

/-- Response of a JSON handler, abstracting the `(jsonify(...), code)`
pairs of the source.  Duplicate-uniqueness rejections are distinguished
from other 400s as `conflictError`, following the spec's error taxonomy;
the source returns status 400 for both. -/
inductive Resp where
  | created (newId : Option ℕ)
  | okSuccess
  | validationError (msg : String)
  | conflictError (msg : String)
  | authError (code : ℕ) (msg : String)
  | notFoundError
  | internalError
  deriving DecidableEq, Repr

/-- HTTP status code of a response. -/
def Resp.status : Resp → ℕ
  | .created _ => 201
  | .okSuccess => 200
  | .validationError _ => 400
  | .conflictError _ => 400
  | .authError c _ => c
  | .notFoundError => 404
  | .internalError => 500

/-- `Post.query.get_or_404(pid)` as an `Option` (primary-key lookup). -/
def lookupPost (s : Store) (pid : ℕ) : Option PostR :=
  s.posts.find? (fun p => p.id == pid)

/-- `Commission.query.get_or_404(cid)` as an `Option`. -/
def lookupCommission (s : Store) (cid : ℕ) : Option CommissionR :=
  s.commissions.find? (fun c => c.id == cid)

/-- Python truthiness of `data.get(key)` for a string-typed field:
false when the key is absent or the string is empty. -/
def presentStr : Option String → Bool
  | none => false
  | some s => !s.isEmpty

/-- Python truthiness of `data.get(key)` for a JSON-valued field. -/
def truthyOpt : Option Value → Bool
  | none => false
  | some v => truthy v

/-- Python string slicing `s[:n]`, by code points.  (`String.take` is
extensionally the same but is defined through byte positions; the list
form reduces well.) -/
def pyCut (s : String) (n : ℕ) : String := String.mk (s.data.take n)

/-! ## Identity service -/

/-- `register` from the source.  `hash` is the opaque
`generate_password_hash` capability.  Returns the response, the store
after the request, and the session identity set by the handler. -/
def register (hash : String → String) (s : Store)
    (username email password : Option String) : Resp × Store × Option ℕ :=
  if !presentStr username || !presentStr email || !presentStr password then
    (Resp.validationError "Missing required fields", s, none)
  else
    let un := username.getD ""
    let em := email.getD ""
    let pw := password.getD ""
    if un.length < 3 || 80 < un.length then
      (Resp.validationError "Username must be 3-80 characters", s, none)
    else if !validate_email em then
      (Resp.validationError "Invalid email format", s, none)
    else if pw.length < 6 then
      (Resp.validationError "Password must be at least 6 characters", s, none)
    else if (s.users.find? (fun u => u.username == un)).isSome then
      (Resp.conflictError "Username already exists", s, none)
    else if (s.users.find? (fun u => u.email == em)).isSome then
      (Resp.conflictError "Email already registered", s, none)
    else
      let nid := s.nextUserId
      let u : UserR := ⟨nid, un, em, hash pw, none, none, false⟩
      (Resp.created none, { s with users := s.users ++ [u], nextUserId := nid + 1 }, some nid)

/-- `login` from the source.  `verify` is the opaque
`check_password_hash(stored, given)` capability.  Returns the response and
the session identity established on success. -/
def login (verify : String → String → Bool) (s : Store)
    (username password : Option String) : Resp × Option ℕ :=
  if !presentStr username || !presentStr password then
    (Resp.validationError "Missing username or password", none)
  else
    match s.users.find? (fun u => u.username == username.getD "") with
    | some u =>
      if verify u.password (password.getD "") then (Resp.okSuccess, some u.id)
      else (Resp.authError 401 "Invalid credentials", none)
    | none => (Resp.authError 401 "Invalid credentials", none)

/-- JSON body of `POST /api/posts`. -/
structure CreatePostData where
  title : Option String := none
  description : Option String := none
  image_url : Option String := none
  price : Option Value := none
  is_for_sale : Option Value := none
  deriving DecidableEq, Repr

/-- `float(x) if x else None` as applied to an optional price field.  The
outer `none` models a raised conversion exception. -/
def priceAssign (pv : Option Value) : Option (Option ℚ) :=
  if truthyOpt pv then (pyFloat (pv.getD Value.vNull)).map some
  else some none

/-- `create_post` from the source.  Note that the price guard is
`data.get('price') and not validate_price(...)`: a falsy price (absent,
null, `0`, `""`, `false`) skips validation and is stored as null. -/
def create_post (s : Store) (uid : ℕ) (data : CreatePostData) : Resp × Store :=
  if !presentStr data.title || !presentStr data.image_url then
    (Resp.validationError "Title and image required", s)
  else if 200 < (data.title.getD "").length then
    (Resp.validationError "Title too long", s)
  else if truthyOpt data.price && !validate_price (data.price.getD Value.vNull) then
    (Resp.validationError "Invalid price", s)
  else
    match priceAssign data.price with
    | none => (Resp.internalError, s)
    | some pr =>
      let pid := s.nextPostId
      let p : PostR :=
        ⟨pid, data.title.getD "", pyCut (data.description.getD "") 1000,
          pyCut (data.image_url.getD "") 500, pr, truthyOpt data.is_for_sale, uid⟩
      (Resp.created (some pid), { s with posts := s.posts ++ [p], nextPostId := pid + 1 })

/-- `delete_post` from the source.  Deleting a post does not cascade to
reviews, favorites or orders (the source configures no cascade and SQLite
does not enforce foreign keys by default). -/
def delete_post (s : Store) (uid pid : ℕ) : Resp × Store :=
  match lookupPost s pid with
  | none => (Resp.notFoundError, s)
  | some post =>
    if post.user_id != uid then (Resp.authError 403 "Unauthorized", s)
    else (Resp.okSuccess, { s with posts := s.posts.filter (fun w => w.id != pid) })

/-- JSON body of `PUT /api/posts/<id>`; `some Value.vNull` models an
explicit JSON `null` (present for the `'price' in data` test). -/
structure PostPatch where
  title : Option String := none
  description : Option String := none
  price : Option Value := none
  is_for_sale : Option Value := none
  deriving DecidableEq, Repr

/-- `update_post` from the source.  The title/description assignments made
before the price check mutate only the in-memory ORM object; they reach the
store solely through the final `db.session.commit()`, so the early
validation return leaves the store unchanged (rollback on teardown). -/
def update_post (s : Store) (uid pid : ℕ) (patch : PostPatch) : Resp × Store :=
  match lookupPost s pid with
  | none => (Resp.notFoundError, s)
  | some post =>
    if post.user_id != uid then (Resp.authError 403 "Unauthorized", s)
    else
      let p1 := match patch.title with
        | some t => { post with title := pyCut t 200 }
        | none => post
      let p2 := match patch.description with
        | some d => { p1 with description := pyCut d 1000 }
        | none => p1
      match patch.price with
      | some v =>
        if !validate_price v then (Resp.validationError "Invalid price", s)
        else
          match priceAssign (some v) with
          | none => (Resp.internalError, s)
          | some pr =>
            let p3 := { p2 with price := pr }
            let p4 := match patch.is_for_sale with
              | some b => { p3 with is_for_sale := truthy b }
              | none => p3
            (Resp.okSuccess, { s with posts := s.posts.map (fun w => if w.id == pid then p4 else w) })
      | none =>
        let p4 := match patch.is_for_sale with
          | some b => { p2 with is_for_sale := truthy b }
          | none => p2
        (Resp.okSuccess, { s with posts := s.posts.map (fun w => if w.id == pid then p4 else w) })

/-! ## Social service -/

/-- `delete_commission` from the source. -/
def delete_commission (s : Store) (uid cid : ℕ) : Resp × Store :=
  match lookupCommission s cid with
  | none => (Resp.notFoundError, s)
  | some c =>
    if c.artist_id != uid then (Resp.authError 403 "Unauthorized", s)
    else (Resp.okSuccess, { s with commissions := s.commissions.filter (fun w => w.id != cid) })

/-! ## Search -/

/-- Is `needle` an initial segment of `hay`? -/
def listStarts : List Char → List Char → Bool
  | [], _ => true
  | _ :: _, [] => false
  | a :: as, b :: bs => a == b && listStarts as bs

/-- Does `hay` contain `needle` as a contiguous sublist? -/
def listHasSub : List Char → List Char → Bool
  | [], needle => needle.isEmpty
  | a :: t, needle => listStarts needle (a :: t) || listHasSub t needle

/-- Does any suffix of the text satisfy the continuation test? -/
def anySuffix (f : List Char → Bool) : List Char → Bool
  | [] => f []
  | c :: ts => f (c :: ts) || anySuffix f ts

/-- SQL LIKE matching as SQLite evaluates it for the search route's
patterns: `%` matches any sequence, `_` matches any single character, and
ordinary characters compare case-insensitively (ASCII folding, matching
SQLite's `lower()`/LIKE behaviour). -/
def likeMatch : List Char → List Char → Bool
  | [], t => t.isEmpty
  | c :: ps, t =>
    if c = '%' then anySuffix (likeMatch ps) t
    else if c = '_' then
      match t with
      | [] => false
      | _ :: ts => likeMatch ps ts
    else
      match t with
      | [] => false
      | d :: ts => (Char.toLower c == Char.toLower d) && likeMatch ps ts

/-- `column ILIKE '%query%'` exactly as the search route issues it: the
raw query is interpolated into the pattern, so `%` and `_` inside the
query act as SQL wildcards. -/
def ilikeContains (hay q : String) : Bool :=
  likeMatch ('%' :: (q.data ++ ['%'])) hay.data

/-- True when a query contains no SQL LIKE wildcard characters; for such
queries `ILIKE '%query%'` is plain case-insensitive substring search. -/
def noWild (cs : List Char) : Bool :=
  cs.all (fun c => !(c == '%') && !(c == '_'))

/-- The filter applied by the search route to posts. -/
def postMatches (q : String) (p : PostR) : Bool :=
  ilikeContains p.title q || ilikeContains p.description q

/-- All posts matching the search query, before pagination. -/
def matchedPosts (s : Store) (q : String) : List PostR :=
  s.posts.filter (postMatches q)

/-- `paginate(page=page, per_page=perPage)` with the default
`error_out=True`: `none` models the 404 abort raised for `page < 1` or for
an empty page other than page 1; the search route's `except` turns that
abort into its 500 error page. -/
def paginate (perPage : ℕ) (page : ℤ) (l : List α) : Option (List α) :=
  if page < 1 then none
  else
    let items := (l.drop ((page - 1).toNat * perPage)).take perPage
    if items.isEmpty && page ≠ 1 then none
    else some items

/-- Outcome of the search route: the neutral page rendered without any
store query, the error page (pagination abort), or the queried posts page
and user list. -/
inductive SearchOutcome where
  | neutral
  | error
  | results (posts : List PostR) (users : List UserR)
  deriving DecidableEq, Repr

/-- The query string actually used: `request.args.get('q', '').strip()[:100]`. -/
def searchQuery (rawQ : String) : String :=
  pyCut (String.mk (pyTrim rawQ.data)) 100

/-- `search` from the source: if the stripped, capped query is falsy or
shorter than 2 characters the neutral page is returned with no store
access; otherwise posts are filtered with `ILIKE '%query%'` and paginated
12 a page (an out-of-range page aborts to the error page before the user
query runs), and up to 10 users matching the same pattern are returned. -/
def search (s : Store) (rawQ : String) (page : ℤ) : SearchOutcome :=
  let query := searchQuery rawQ
  if query.isEmpty || query.length < 2 then SearchOutcome.neutral
  else
    match paginate 12 page (matchedPosts s query) with
    | none => SearchOutcome.error
    | some items =>
      SearchOutcome.results items
        ((s.users.filter (fun u => ilikeContains u.username query)).take 10)

/-! ## Seed route -/

/-- ASCII lower-casing by code points (extensionally `String.toLower`,
written over the character list so it reduces well). -/
def strLower (s : String) : String := String.mk (s.data.map Char.toLower)

/-- The specification's notion of case-insensitive substring containment,
stated structurally (for comparison with the executable `ilikeContains`). -/
def containsCI (hay needle : String) : Prop :=
  ∃ l r, (strLower hay).data = l ++ (strLower needle).data ++ r

/-- Fixture user (not an artist). -/
def aliceUser : UserR := ⟨1, "alice", "alice@x.com", "h1", none, none, false⟩

/-- Fixture user (an artist). -/
def bobUser : UserR := ⟨2, "bob", "bob@x.com", "h2", none, none, true⟩

/-- Fixture post owned by user 1, for sale at price 50. -/
def skyPost : PostR := ⟨1, "Sky", "blue art", "http://x/1.png", some 50, true, 1⟩

/-- Fixture post owned by user 1, for sale but with a null price. -/
def nullPricePost : PostR := ⟨2, "Free", "no price", "http://x/2.png", none, true, 1⟩

/-- Fixture commission owned by user 1. -/
def logoCommission : CommissionR := ⟨1, "Logo", "", 30, 1⟩

/-- Fixture store holding the rows above. -/
def baseStore : Store :=
  ⟨[aliceUser, bobUser], [skyPost, nullPricePost], [logoCommission], [], [], [], 3, 3, 2, 1, 1, 1⟩

/-- Fixture post whose title contains an `a` followed by some character,
but not the literal text "a_". -/
def wildPost : PostR := ⟨1, "axb", "", "http://x/3.png", none, false, 1⟩

/-- Fixture store holding only `wildPost`. -/
def wildStore : Store := ⟨[], [wildPost], [], [], [], [], 1, 2, 1, 1, 1, 1⟩

/-! ## Helper lemmas -/

theorem validate_price_spec (v : Value) :
    validate_price v = true ↔ ∃ q, pyFloat v = some q ∧ 0 < q ∧ q ≤ 999999 := by
  unfold validate_price
  cases h : pyFloat v with
  | none => simp
  | some q => simp [h]

theorem validate_rating_spec (v : Value) :
    validate_rating v = true ↔ ∃ r, pyInt v = some r ∧ 1 ≤ r ∧ r ≤ 5 := by
  unfold validate_rating
  cases h : pyInt v with
  | none => simp
  | some r => simp [h]

theorem parsePyFloat_empty : parsePyFloat "" = none := by rfl

theorem validate_price_truthy (v : Value) (h : validate_price v = true) : truthy v = true := by
  rcases (validate_price_spec v).mp h with ⟨q, hq, hpos, _⟩
  cases v with
  | vNull => simp [pyFloat] at hq
  | vBool b =>
    cases b with
    | false =>
      simp [pyFloat] at hq
      rw [← hq] at hpos
      exact absurd hpos (by norm_num)
    | true => rfl
  | vNum p =>
    simp [pyFloat] at hq
    subst hq
    simp [truthy]
    exact ne_of_gt hpos
  | vStr s =>
    have hne : s ≠ "" := by
      intro he
      subst he
      simp [pyFloat, parsePyFloat_empty] at hq
    have hb : s.isEmpty = false := by
      rw [← Bool.not_eq_true, String.isEmpty_iff]
      exact hne
    simp [truthy, hb]

theorem ratTrunc_intCast (r : ℤ) : ratTrunc (r : ℚ) = r := by
  unfold ratTrunc
  rw [Rat.num_intCast, Rat.den_intCast]
  simp only [Nat.div_one]
  rcases lt_or_le r 0 with h | h
  · rw [if_pos h]; omega
  · rw [if_neg (not_lt.mpr h)]; omega

/-! ## Claim theorems -/

/-- C8: `validate_price` accepts exactly the inputs parseable as a number
strictly greater than 0 and at most 999999; it rejects 0, negatives,
numbers above 999999, and every unparseable input. -/
theorem c8_validate_price_exact :
    (∀ v q, pyFloat v = some q → (validate_price v = true ↔ 0 < q ∧ q ≤ 999999)) ∧
    (∀ v, pyFloat v = none → validate_price v = false) ∧
    validate_price (Value.vNum 0) = false ∧
    (∀ q : ℚ, q < 0 → validate_price (Value.vNum q) = false) ∧
    (∀ q : ℚ, 999999 < q → validate_price (Value.vNum q) = false) ∧
    (∀ q : ℚ, 0 < q → q ≤ 999999 → validate_price (Value.vNum q) = true) := by
  refine ⟨?_, ?_, by decide, ?_, ?_, ?_⟩
  · intro v q hq
    rw [validate_price_spec]
    constructor
    · rintro ⟨q', hq', h1, h2⟩
      rw [hq] at hq'
      cases hq'
      exact ⟨h1, h2⟩
    · intro hb
      exact ⟨q, hq, hb⟩
  · intro v hv
    unfold validate_price
    rw [hv]
  · intro q hq
    unfold validate_price
    simp only [pyFloat, decide_eq_false_iff_not]
    rintro ⟨h1, -⟩
    linarith
  · intro q hq
    unfold validate_price
    simp only [pyFloat, decide_eq_false_iff_not]
    rintro ⟨-, h2⟩
    linarith
  · intro q h1 h2
    unfold validate_price
    simp only [pyFloat, decide_eq_true_eq]
    exact ⟨h1, h2⟩

/-- Witness for C8 at concrete inputs. -/
theorem c8_validate_price_exact_witness :
    validate_price (Value.vNum 5) = true ∧ validate_price (Value.vNum (-3)) = false :=
  ⟨c8_validate_price_exact.2.2.2.2.2 5 (by decide) (by decide),
   c8_validate_price_exact.2.2.2.1 (-3) (by decide)⟩

/-- C7 counterexample: the non-integer number 3.5 is accepted by
`validate_rating` (the claim says it is rejected), because Python
`int(3.5)` truncates to 3. -/
theorem c7_counterexample : validate_rating (Value.vNum (7 / 2)) = true := by
  have hn : (7 / 2 : ℚ).num = 7 := by norm_num
  have hd : (7 / 2 : ℚ).den = 2 := by norm_num
  have h1 : ratTrunc (7 / 2 : ℚ) = 3 := by
    unfold ratTrunc
    rw [hn, hd]
    decide
  simp only [validate_rating, pyInt, h1]
  decide

/-- C7 (amended): `validate_rating` accepts exactly the inputs whose Python
`int()` conversion lands in [1, 5]: integers 1-5 are accepted, 0, 6 and
non-numeric strings are rejected, but non-integer numbers truncate toward
zero, so 3.5 is accepted while the string "3.5" is rejected. -/
theorem c7_amended_rating :
    (∀ v r, pyInt v = some r → (validate_rating v = true ↔ 1 ≤ r ∧ r ≤ 5)) ∧
    (∀ v, pyInt v = none → validate_rating v = false) ∧
    (∀ r : ℤ, 1 ≤ r → r ≤ 5 → validate_rating (Value.vNum (r : ℚ)) = true) ∧
    validate_rating (Value.vNum 0) = false ∧
    validate_rating (Value.vNum 6) = false ∧
    validate_rating (Value.vStr "abc") = false ∧
    validate_rating (Value.vStr "3.5") = false := by
  refine ⟨?_, ?_, ?_, by decide, by decide, by decide, by decide⟩
  · intro v r hr
    rw [validate_rating_spec]
    constructor
    · rintro ⟨r', hr', h⟩
      rw [hr] at hr'
      cases hr'
      exact h
    · intro h
      exact ⟨r, hr, h⟩
  · intro v hv
    unfold validate_rating
    rw [hv]
  · intro r h1 h2
    unfold validate_rating
    simp only [pyInt, ratTrunc_intCast, decide_eq_true_eq]
    exact ⟨h1, h2⟩

/-- Witness for the amended C7 at a concrete input. -/
theorem c7_amended_rating_witness :
    validate_rating (Value.vNum ((3 : ℤ) : ℚ)) = true :=
  c7_amended_rating.2.2.1 3 (by decide) (by decide)

/-- C2: with the post's owner as the identity, a patch whose price field
fails validation makes `update_post` return the validation error and leaves
the store exactly as it was, so title/description values in the same patch
are not committed. -/
theorem c2_update_post_atomic (s : Store) (uid pid : ℕ) (post : PostR) (patch : PostPatch)
    (v : Value) (hlk : lookupPost s pid = some post) (hown : post.user_id = uid)
    (hp : patch.price = some v) (hbad : validate_price v = false) :
    update_post s uid pid patch = (Resp.validationError "Invalid price", s) := by
  simp [update_post, hlk, hown, hp, hbad]

/-- Witness for C2 at a concrete input. -/
theorem c2_update_post_atomic_witness :
    update_post baseStore 1 1
        { title := some "New", description := some "D", price := some (Value.vNum 0) } =
      (Resp.validationError "Invalid price", baseStore) :=
  c2_update_post_atomic baseStore 1 1 skyPost _ (Value.vNum 0) (by decide) (by decide) rfl
    (by decide)

/-- C1: acting on another user's post (update or delete) or another user's
commission (delete) yields AuthError 403 and leaves the whole store
unchanged. -/
theorem c1_ownership_guard (s : Store) (uid : ℕ) :
    (∀ pid post patch, lookupPost s pid = some post → post.user_id ≠ uid →
      update_post s uid pid patch = (Resp.authError 403 "Unauthorized", s) ∧
      delete_post s uid pid = (Resp.authError 403 "Unauthorized", s)) ∧
    (∀ cid c, lookupCommission s cid = some c → c.artist_id ≠ uid →
      delete_commission s uid cid = (Resp.authError 403 "Unauthorized", s)) := by
  constructor
  · intro pid post patch hlk hne
    constructor
    · simp [update_post, hlk, hne]
    · simp [delete_post, hlk, hne]
  · intro cid c hlk hne
    simp [delete_commission, hlk, hne]

/-- Witness for C1 at concrete inputs. -/
theorem c1_ownership_guard_witness :
    update_post baseStore 2 1 {} = (Resp.authError 403 "Unauthorized", baseStore) ∧
    delete_post baseStore 2 1 = (Resp.authError 403 "Unauthorized", baseStore) ∧
    delete_commission baseStore 2 1 = (Resp.authError 403 "Unauthorized", baseStore) :=
  ⟨((c1_ownership_guard baseStore 2).1 1 skyPost {} (by decide) (by decide)).1,
   ((c1_ownership_guard baseStore 2).1 1 skyPost {} (by decide) (by decide)).2,
   (c1_ownership_guard baseStore 2).2 1 logoCommission (by decide) (by decide)⟩

/-- C6 counterexample: a present price of 0 is falsy, so `create_post`
skips validation, succeeds with 201 and stores a null price, instead of
returning the ValidationError the claim requires. -/
theorem c6_counterexample :
    (create_post baseStore 1
        { title := some "T", image_url := some "u", price := some (Value.vNum 0) }).1 =
      Resp.created (some 3) ∧
    (create_post baseStore 1
        { title := some "T", image_url := some "u", price := some (Value.vNum 0) }).2.posts =
      baseStore.posts ++ [⟨3, "T", "", "u", none, false, 1⟩] := by
  constructor
  · decide
  · decide

/-- The post row inserted by a successful `create_post`. -/
def newPostRow (s : Store) (uid : ℕ) (data : CreatePostData) (pr : Option ℚ) : PostR :=
  ⟨s.nextPostId, data.title.getD "", pyCut (data.description.getD "") 1000, pyCut (data.image_url.getD "") 500, pr, truthyOpt data.is_for_sale, uid⟩

/-- C6 (amended): `create_post` rejects a price only when it is present,
truthy and invalid; a falsy price (absent, null, 0, empty string, false)
skips validation and the post is created with its price stored as null. -/
theorem c6_amended_create_post_price (s : Store) (uid : ℕ) (data : CreatePostData)
    (ht : presentStr data.title = true) (himg : presentStr data.image_url = true)
    (hlen : (data.title.getD "").length ≤ 200) :
    (∀ v, data.price = some v → truthy v = true → validate_price v = false →
      create_post s uid data = (Resp.validationError "Invalid price", s)) ∧
    (truthyOpt data.price = false →
      create_post s uid data = (Resp.created (some s.nextPostId),
        { s with posts := s.posts ++ [newPostRow s uid data none], nextPostId := s.nextPostId + 1 })) := by
  have h2 : ¬(200 < (data.title.getD "").length) := not_lt.mpr hlen
  constructor
  · intro v hv htr hbad
    simp [create_post, ht, himg, h2, hv, truthyOpt, htr, hbad]
  · intro hfalsy
    simp [create_post, newPostRow, ht, himg, h2, hfalsy, priceAssign]

/-- Witness for the amended C6: price absent, post created with null price. -/
theorem c6_amended_create_post_price_witness :
    create_post baseStore 1 { title := some "T", image_url := some "u" } =
      (Resp.created (some 3),
        { baseStore with posts := baseStore.posts ++ [newPostRow baseStore 1 { title := some "T", image_url := some "u" } none], nextPostId := 4 }) :=
  (c6_amended_create_post_price baseStore 1
      { title := some "T", image_url := some "u" } (by decide) (by decide) (by decide)).2
    (by decide)

theorem find?_map_replace (l : List PostR) (pid : ℕ) (p4 : PostR) (h4 : p4.id = pid) :
    (l.find? (fun p => p.id == pid)).isSome = true →
    (l.map (fun w => if w.id == pid then p4 else w)).find? (fun p => p.id == pid) = some p4 := by
  induction l with
  | nil => intro h; simp at h
  | cons a t ih =>
    intro h
    by_cases ha : a.id = pid
    · have hmap : (if a.id == pid then p4 else a) = p4 := by simp [ha]
      simp only [List.map_cons, hmap]
      exact List.find?_cons_of_pos _ (by simp [h4])
    · have hmap : (if a.id == pid then p4 else a) = a := by simp [ha]
      simp only [List.map_cons, hmap]
      rw [List.find?_cons_of_neg _ (by simp [ha])]
      apply ih
      rw [List.find?_cons_of_neg _ (by simp [ha])] at h
      exact h

/-- C10: when a patch contains a price field, `update_post` either rejects
the request leaving the store untouched (invalid price, missing post, or
foreign owner) or commits a post whose stored price is a number in
(0, 999999]; the `None`-assigning branch for a falsy price is unreachable,
so an update can never null out a price. -/
theorem c10_update_never_null_price (s : Store) (uid pid : ℕ) (patch : PostPatch) (v : Value)
    (hp : patch.price = some v) :
    (validate_price v = false →
      update_post s uid pid patch = (Resp.validationError "Invalid price", s) ∨
      update_post s uid pid patch = (Resp.notFoundError, s) ∨
      update_post s uid pid patch = (Resp.authError 403 "Unauthorized", s)) ∧
    (∀ s', update_post s uid pid patch = (Resp.okSuccess, s') →
      ∃ post q, lookupPost s' pid = some post ∧ post.price = some q ∧ 0 < q ∧ q ≤ 999999) := by
  obtain ⟨pt, pd, ppr, ps⟩ := patch
  simp only at hp
  subst hp
  constructor
  · intro hbad
    cases hlk : lookupPost s pid with
    | none => right; left; simp [update_post, hlk]
    | some post =>
      by_cases how : post.user_id = uid
      · left; simp [update_post, hlk, how, hbad]
      · right; right; simp [update_post, hlk, how]
  · intro s' h
    cases hlk : lookupPost s pid with
    | none => simp [update_post, hlk] at h
    | some post =>
      have hpid : post.id = pid := by
        have := List.find?_some hlk
        simpa using this
      by_cases how : post.user_id = uid
      · by_cases hval : validate_price v = true
        · have htr := validate_price_truthy v hval
          rcases (validate_price_spec v).mp hval with ⟨q, hq, h1, h2⟩
          have hpa : priceAssign (some v) = some (some q) := by
            simp [priceAssign, truthyOpt, htr, hq]
          cases pt <;> cases pd <;> cases ps <;>
            (simp only [update_post, hlk, how, hval, hpa, bne_self_eq_false, Bool.not_true,
               if_false, Bool.false_eq_true, Bool.not_false, if_true, Prod.mk.injEq, true_and] at h
             subst h
             refine ⟨_, q, find?_map_replace s.posts pid _ ?_
               (by show (lookupPost s pid).isSome = true; rw [hlk]; rfl), by simp, h1, h2⟩
             simp [hpid])
        · have hbad : validate_price v = false := by
            rwa [Bool.not_eq_true] at hval
          simp [update_post, hlk, how, hbad] at h
      · simp [update_post, hlk, how] at h

/-- Witness for C10: an unparseable price string is rejected with the
store unchanged. -/
theorem c10_update_never_null_price_witness :
    update_post baseStore 1 1 { price := some (Value.vStr "x") } =
        (Resp.validationError "Invalid price", baseStore) ∨
    update_post baseStore 1 1 { price := some (Value.vStr "x") } =
        (Resp.notFoundError, baseStore) ∨
    update_post baseStore 1 1 { price := some (Value.vStr "x") } =
        (Resp.authError 403 "Unauthorized", baseStore) :=
  (c10_update_never_null_price baseStore 1 1 { price := some (Value.vStr "x") }
      (Value.vStr "x") rfl).1 (by decide)

theorem listStarts_iff (n h : List Char) : listStarts n h = true ↔ ∃ r, h = n ++ r := by
  induction n generalizing h with
  | nil => simp [listStarts]
  | cons a as ih =>
    cases h with
    | nil => simp [listStarts]
    | cons b bs =>
      simp only [listStarts, Bool.and_eq_true, beq_iff_eq, ih, List.cons_append,
        List.cons.injEq]
      constructor
      · rintro ⟨rfl, r, rfl⟩
        exact ⟨r, rfl, rfl⟩
      · rintro ⟨r, rfl, rfl⟩
        exact ⟨rfl, r, rfl⟩

theorem listHasSub_iff (h n : List Char) : listHasSub h n = true ↔ ∃ l r, h = l ++ n ++ r := by
  induction h with
  | nil =>
    simp only [listHasSub, List.isEmpty_iff]
    constructor
    · rintro rfl
      exact ⟨[], [], rfl⟩
    · rintro ⟨l, r, heq⟩
      rcases List.append_eq_nil.mp (List.append_eq_nil.mp heq.symm).1 with ⟨-, hn⟩
      exact hn
  | cons a t ih =>
    simp only [listHasSub, Bool.or_eq_true, listStarts_iff, ih]
    constructor
    · rintro (⟨r, heq⟩ | ⟨l, r, rfl⟩)
      · exact ⟨[], r, by simpa using heq⟩
      · exact ⟨a :: l, r, rfl⟩
    · rintro ⟨l, r, heq⟩
      cases l with
      | nil => exact Or.inl ⟨r, by simpa using heq⟩
      | cons x xs =>
        rw [List.cons_append, List.cons_append, List.cons.injEq] at heq
        exact Or.inr ⟨xs, r, heq.2⟩

theorem anySuffix_iff (f : List Char → Bool) (t : List Char) :
    anySuffix f t = true ↔ ∃ l r, t = l ++ r ∧ f r = true := by
  induction t with
  | nil =>
    simp only [anySuffix]
    constructor
    · intro h
      exact ⟨[], [], rfl, h⟩
    · rintro ⟨l, r, heq, hr⟩
      rcases List.append_eq_nil.mp heq.symm with ⟨rfl, rfl⟩
      exact hr
  | cons c ts ih =>
    simp only [anySuffix, Bool.or_eq_true, ih]
    constructor
    · rintro (hf | ⟨l, r, rfl, hr⟩)
      · exact ⟨[], c :: ts, rfl, hf⟩
      · exact ⟨c :: l, r, rfl, hr⟩
    · rintro ⟨l, r, heq, hr⟩
      cases l with
      | nil =>
        left
        rw [List.nil_append] at heq
        rw [heq]
        exact hr
      | cons x xs =>
        rw [List.cons_append, List.cons.injEq] at heq
        exact Or.inr ⟨xs, r, heq.2, hr⟩

theorem likeMatch_noWild (p : List Char) (hp : ∀ c ∈ p, c ≠ '%' ∧ c ≠ '_') :
    ∀ t, likeMatch (p ++ ['%']) t = true ↔
      ∃ pre r, t = pre ++ r ∧ pre.map Char.toLower = p.map Char.toLower := by
  induction p with
  | nil =>
    intro t
    simp only [List.nil_append, List.map_nil, List.map_eq_nil_iff]
    constructor
    · intro h
      exact ⟨[], t, rfl, rfl⟩
    · intro h
      simp only [likeMatch]
      rw [if_pos trivial, anySuffix_iff]
      exact ⟨t, [], by simp, by simp⟩
  | cons c ps ih =>
    intro t
    have hc := hp c (List.mem_cons_self c ps)
    have hps : ∀ x ∈ ps, x ≠ '%' ∧ x ≠ '_' := fun x hx => hp x (List.mem_cons_of_mem c hx)
    rw [List.cons_append]
    simp only [likeMatch, if_neg hc.1, if_neg hc.2]
    cases t with
    | nil =>
      simp only [List.map_cons]
      constructor
      · intro h
        exact absurd h (by simp)
      · rintro ⟨pre, r, heq, hmap⟩
        rcases List.append_eq_nil.mp heq.symm with ⟨rfl, -⟩
        simp at hmap
    | cons d ts =>
      simp only [Bool.and_eq_true, beq_iff_eq, ih hps, List.map_cons]
      constructor
      · rintro ⟨hcd, pre, r, rfl, hmap⟩
        exact ⟨d :: pre, r, rfl, by simp [hmap, hcd]⟩
      · rintro ⟨pre, r, heq, hmap⟩
        cases pre with
        | nil => simp at hmap
        | cons x xs =>
          rw [List.cons_append, List.cons.injEq] at heq
          rw [List.map_cons, List.cons.injEq] at hmap
          obtain ⟨hdx, hts⟩ := heq
          obtain ⟨hm1, hm2⟩ := hmap
          subst hdx
          exact ⟨hm1.symm, xs, r, hts, hm2⟩

theorem ilikeContains_iff_containsCI (hay q : String) (hq : noWild q.data = true) :
    ilikeContains hay q = true ↔ containsCI hay q := by
  have hq' : ∀ c ∈ q.data, c ≠ '%' ∧ c ≠ '_' := by
    intro c hc
    have := List.all_eq_true.mp hq c hc
    constructor
    · intro he
      subst he
      simp at this
    · intro he
      subst he
      simp at this
  unfold ilikeContains containsCI strLower
  simp only [likeMatch]
  rw [if_pos trivial, anySuffix_iff]
  constructor
  · rintro ⟨l, r, heq, hr⟩
    rcases (likeMatch_noWild q.data hq' r).mp hr with ⟨pre, r2, rfl, hmap⟩
    refine ⟨l.map Char.toLower, r2.map Char.toLower, ?_⟩
    rw [heq]
    simp [hmap]
  · rintro ⟨l, r, hmap⟩
    rcases List.map_eq_append_iff.mp hmap with ⟨t1, t2, heq2, hm1, hm2⟩
    rcases List.map_eq_append_iff.mp hm1 with ⟨t11, t12, heq3, hm11, hm12⟩
    refine ⟨t11, t12 ++ t2, by rw [heq2, heq3]; simp, ?_⟩
    exact (likeMatch_noWild q.data hq' (t12 ++ t2)).mpr ⟨t12, t2, rfl, hm12⟩

/-- C9 counterexample: the raw query is interpolated into the ILIKE
pattern, so `_` in the in-scope query "a\_" acts as a single-character SQL
wildcard: the post titled "axb" is returned although neither its title nor
its description contains "a\_" as a substring. -/
theorem c9_counterexample :
    2 ≤ (searchQuery "a_").length ∧
    search wildStore "a_" 1 = SearchOutcome.results [wildPost] [] ∧
    ¬ containsCI wildPost.title "a_" ∧
    ¬ containsCI wildPost.description "a_" := by
  refine ⟨by decide, by decide, ?_, ?_⟩
  · intro hc
    exact absurd ((listHasSub_iff (strLower wildPost.title).data (strLower "a_").data).mpr hc)
      (by decide)
  · intro hc
    exact absurd ((listHasSub_iff (strLower wildPost.description).data (strLower "a_").data).mpr hc)
      (by decide)

/-- C9 (amended): a query whose stripped, capped form is shorter than 2
characters yields the neutral result without any store query; a longer
query filters posts with `ILIKE '%query%'` — so `%` and `_` in the query
act as SQL wildcards — paginated 12 a page, where an out-of-range page
(page < 1, or an empty page other than 1) surfaces the route's error page,
and a successful page also carries up to 10 users matching the same
pattern; when the query contains no wildcard characters, the matched posts
are exactly those whose title or description contains the query
case-insensitively as a substring. -/
theorem c9_amended_search (s : Store) (rawQ : String) (page : ℤ) :
    ((searchQuery rawQ).length < 2 → search s rawQ page = SearchOutcome.neutral) ∧
    (2 ≤ (searchQuery rawQ).length →
      (paginate 12 page (matchedPosts s (searchQuery rawQ)) = none →
        search s rawQ page = SearchOutcome.error) ∧
      (∀ items, paginate 12 page (matchedPosts s (searchQuery rawQ)) = some items →
        search s rawQ page = SearchOutcome.results items
          ((s.users.filter (fun u => ilikeContains u.username (searchQuery rawQ))).take 10)) ∧
      (∀ p, p ∈ matchedPosts s (searchQuery rawQ) ↔
        p ∈ s.posts ∧ (ilikeContains p.title (searchQuery rawQ) = true ∨
          ilikeContains p.description (searchQuery rawQ) = true)) ∧
      (noWild (searchQuery rawQ).data = true →
        ∀ p, p ∈ matchedPosts s (searchQuery rawQ) ↔
          p ∈ s.posts ∧
            (containsCI p.title (searchQuery rawQ) ∨
              containsCI p.description (searchQuery rawQ)))) := by
  constructor
  · intro hlt
    unfold search
    rw [if_pos (by simp [hlt])]
  · intro hge
    have hcond : ¬(((searchQuery rawQ).isEmpty || decide ((searchQuery rawQ).length < 2)) = true) := by
      simp only [Bool.or_eq_true, decide_eq_true_eq, String.isEmpty_iff]
      rintro (he | hlt)
      · rw [he] at hge
        simp at hge
      · omega
    refine ⟨?_, ?_, ?_, ?_⟩
    · intro hpag
      unfold search
      rw [if_neg hcond, hpag]
    · intro items hpag
      unfold search
      rw [if_neg hcond, hpag]
    · intro p
      unfold matchedPosts
      rw [List.mem_filter]
      simp only [postMatches, Bool.or_eq_true]
    · intro hnw p
      unfold matchedPosts
      rw [List.mem_filter]
      simp only [postMatches, Bool.or_eq_true, ilikeContains_iff_containsCI _ _ hnw]

/-- Witness for the amended C9: the neutral page for a short query, the
error page for an out-of-range page, and a results page. -/
theorem c9_amended_search_witness :
    search wildStore " a " 1 = SearchOutcome.neutral ∧
    search wildStore "axb" 2 = SearchOutcome.error ∧
    search wildStore "axb" 1 = SearchOutcome.results [wildPost] [] :=
  ⟨(c9_amended_search wildStore " a " 1).1 (by decide),
   ((c9_amended_search wildStore "axb" 2).2 (by decide)).1 (by decide),
   ((c9_amended_search wildStore "axb" 1).2 (by decide)).2.1 [wildPost] (by decide)⟩

theorem find?_append_none {α : Type} (l₁ l₂ : List α) (p : α → Bool)
    (h : l₁.find? p = none) : (l₁ ++ l₂).find? p = l₂.find? p := by
  induction l₁ with
  | nil => simp
  | cons a t ih =>
    have hpa : ¬(p a = true) := by
      intro hp
      rw [List.find?_cons_of_pos _ hp] at h
      simp at h
    rw [List.cons_append, List.find?_cons_of_neg _ hpa]
    apply ih
    rwa [List.find?_cons_of_neg _ hpa] at h

/-- C5: a registration passing all validation (fields present, username
length in [3, 80], valid email shape, password at least 6 characters,
username and email untaken) succeeds with 201, and an immediate login with
the same username and password succeeds with 200, given that the opaque
hash/verify capability satisfies `verify (hash p) p = true`. -/
theorem c5_register_then_login (hash : String → String) (verify : String → String → Bool)
    (hverify : ∀ p, verify (hash p) p = true) (s : Store) (un em pw : String)
    (hun1 : 3 ≤ un.length) (hun2 : un.length ≤ 80)
    (hem : validate_email em = true) (hpw : 6 ≤ pw.length)
    (hname : s.users.find? (fun u => u.username == un) = none)
    (hemail : s.users.find? (fun u => u.email == em) = none) :
    register hash s (some un) (some em) (some pw) =
      (Resp.created none, { s with users := s.users ++ [⟨s.nextUserId, un, em, hash pw, none, none, false⟩], nextUserId := s.nextUserId + 1 }, some s.nextUserId) ∧
    login verify { s with users := s.users ++ [⟨s.nextUserId, un, em, hash pw, none, none, false⟩], nextUserId := s.nextUserId + 1 } (some un) (some pw) =
      (Resp.okSuccess, some s.nextUserId) := by
  have hunne : un.isEmpty = false := by
    rw [← Bool.not_eq_true, String.isEmpty_iff]
    intro he
    rw [he] at hun1
    simp at hun1
  have hemne : em.isEmpty = false := by
    rw [← Bool.not_eq_true, String.isEmpty_iff]
    intro he
    rw [he] at hem
    exact absurd hem (by decide)
  have hpwne : pw.isEmpty = false := by
    rw [← Bool.not_eq_true, String.isEmpty_iff]
    intro he
    rw [he] at hpw
    simp at hpw
  have h3 : ¬(un.length < 3) := by omega
  have h80 : ¬(80 < un.length) := by omega
  have h6 : ¬(pw.length < 6) := by omega
  constructor
  · simp [register, presentStr, hunne, hemne, hpwne, h3, h80, hem, h6, hname, hemail]
  · have hfind : (s.users ++ [(⟨s.nextUserId, un, em, hash pw, none, none, false⟩ : UserR)]).find?
        (fun u => u.username == un) = some ⟨s.nextUserId, un, em, hash pw, none, none, false⟩ := by
      rw [find?_append_none _ _ _ hname]
      exact List.find?_cons_of_pos _ (by simp)
    simp [login, presentStr, hunne, hpwne, hfind, hverify]

/-- Witness for C5: registering "alice" on the empty store and logging in
with the same credentials, with hash the identity and verify equality. -/
theorem c5_register_then_login_witness :
    register (fun p => p) emptyStore (some "alice") (some "alice@x.com") (some "secret1") =
      (Resp.created none, { emptyStore with users := [⟨1, "alice", "alice@x.com", "secret1", none, none, false⟩], nextUserId := 2 }, some 1) ∧
    login (fun st gv => st == gv) { emptyStore with users := [⟨1, "alice", "alice@x.com", "secret1", none, none, false⟩], nextUserId := 2 } (some "alice") (some "secret1") =
      (Resp.okSuccess, some 1) :=
  c5_register_then_login (fun p => p) (fun st gv => st == gv) (fun p => by simp) emptyStore
    "alice" "alice@x.com" "secret1" (by decide) (by decide) (by decide) (by decide) rfl rfl

